import Mathlib

/-!
Shallow embedding of the WhatTheFood API core: the JSON-file-backed dish
repository and the dish-of-the-day selection algorithm from
`src/repositories/dishes.ts`, together with the averaging utility from
`src/util/arrays.ts`.

Modelling conventions:
  * Numeric rating values are modelled as rationals (`ℚ`); the JavaScript
    arithmetic on them (sum, division for the average) is exact on the
    values exercised here.
  * The persisted JSON collection (`databases/dishes.json`) is a
    `List DishEntity` threaded explicitly through each operation; `read()`
    yields the current list and `write()` is returning the new list.
  * The set of image files present in `dish-images/` is modelled as a
    `List String` of file names; `existsSync` is list membership and
    `unlinkSync` removes the first occurrence.
  * A thrown `Error` is an `Except.error` carrying the message constructor;
    since every repository operation performs its single `write` only after
    all throw sites, an error result means the persisted collection was not
    written.
  * `dishes.find(...)` followed by in-place mutation of the found element is
    embedded by `mutateFirst`, which rebuilds the array with the first
    matching element replaced; `dishes.splice(dishes.indexOf(dish), 1)`
    (where `dish` is the first match of `find`) is embedded by
    `removeFirst`.
-/

/-- Opaque rich-text description payload (`description: any[]` in the
source); the core never inspects it, so its nodes are an uninterpreted
type. -/
abbrev DescriptionNode := String

/-- A single user rating, `interface DishRating`. -/
structure DishRating where
  userId : String
  rating : ℚ
deriving DecidableEq, Repr

/-- A persisted dish record, `interface DishEntity`. -/
structure DishEntity where
  name : String
  imageFilePath : String
  description : List DescriptionNode
  ratings : List DishRating
deriving DecidableEq, Repr

/-- The client-facing dish shape, `interface DishTransport`. -/
structure DishTransport where
  name : String
  imageFilePath : String
  description : List DescriptionNode
  rating : ℚ
  yourRating : Option ℚ
deriving DecidableEq, Repr

/-- A dish as received from the client, `interface IncomingDish`.  The
`image` field is the base-64 payload; the optional `description` mirrors
`description?: any[]`. -/
structure IncomingDish where
  name : String
  image : String
  description : Option (List DescriptionNode)
deriving DecidableEq, Repr

/-- The error messages thrown by the repository; the specification's
taxonomy maps `dishAlreadyExists` to `ConflictError`, `dishDoesNotExist` to
`NotFoundError`, and the two `missing*` constructors to
`ValidationError`. -/
inductive DishError where
  | missingDishName
  | missingDishImage
  | dishAlreadyExists
  | dishDoesNotExist
deriving DecidableEq, Repr

/-- The whole persisted world the repository touches: the JSON collection
and the image files on disk. -/
structure Store where
  db : List DishEntity
  images : List String
deriving DecidableEq, Repr

/-- Averaging utility `avg` from `src/util/arrays.ts`: `0` for an empty
array, otherwise `reduce((sum, item) => sum + item, 0)` divided by the
length. -/
def avg (arr : List ℚ) : ℚ :=
  if arr.length = 0 then 0
  else (arr.foldl (· + ·) 0) / (arr.length : ℚ)

/-- Drops the leading whitespace characters of a character list. -/
def dropLeadingWhitespace : List Char → List Char
  | [] => []
  | c :: cs => if c.isWhitespace then dropLeadingWhitespace cs else c :: cs

/-- JavaScript's `String.prototype.trim()`: the string with leading and
trailing whitespace removed.  (Defined structurally so that it evaluates
inside the kernel; `String.trim` of the standard library computes the same
strings but is not definitionally reducible.) -/
def jsTrim (s : String) : String :=
  String.mk (dropLeadingWhitespace
    ((dropLeadingWhitespace s.data.reverse).reverse))

/-- Guard `validateIncomingDish`: rejects an empty dish name.  (The
`== null` checks guard against absent JSON fields, which the typed
embedding cannot represent; the observable check on a present string is
the length test.) -/
def validateIncomingDish (dish : IncomingDish) : Option DishError :=
  if dish.name.length = 0 then some DishError.missingDishName
  else none

/-- Replaces the first element satisfying `p` by its image under `f`,
returning the original element, the updated element and the updated list;
`none` when no element matches.  This embeds the JavaScript pattern
`const x = arr.find(p); mutate x in place`. -/
def mutateFirst (p : α → Bool) (f : α → α) : List α → Option (α × α × List α)
  | [] => none
  | x :: xs =>
    if p x then some (x, f x, f x :: xs)
    else (mutateFirst p f xs).map (fun r => (r.1, r.2.1, x :: r.2.2))

/-- Removes the first element satisfying `p`, returning it and the
remaining list; `none` when no element matches.  This embeds
`const x = arr.find(p); arr.splice(arr.indexOf(x), 1)`. -/
def removeFirst (p : α → Bool) : List α → Option (α × List α)
  | [] => none
  | x :: xs =>
    if p x then some (x, xs)
    else (removeFirst p xs).map (fun r => (r.1, x :: r.2))

/-- Outcome of the external ImageMagick `write` call inside
`processDishImage`: either the compressed file was written, or the write
failed (the `gm` callback is then invoked with an error argument). -/
inductive ImageWriteOutcome where
  | ok
  | writeFailed
deriving DecidableEq

/-- Embeds `processDishImage` plus its effect on `dish-images/`.  The
fresh random file name (`randomBytes(8).toString('hex') + '.' + ext`) is
the parameter `newImagePath`.  The source's `write` callback ignores the
error argument handed to it by `gm` and unconditionally resolves the
promise with the file path, so the returned path is `newImagePath` in both
outcomes; only the on-disk image set differs. -/
def processDishImage (newImagePath : String) (outcome : ImageWriteOutcome)
    (images : List String) : String × List String :=
  (newImagePath,
    match outcome with
    | ImageWriteOutcome.ok => newImagePath :: images
    | ImageWriteOutcome.writeFailed => images)

/-- Embeds `deleteDishImage`: unlink the dish's image file if it exists
(`existsSync` guard, so an absent file is silently skipped). -/
def deleteDishImage (images : List String) (path : String) : List String :=
  if images.contains path then images.erase path else images

/-- Embeds `addDish`.  Order as in the source: read the collection, check
for an existing dish with the *untrimmed* incoming name, process the
image, push a record with the *trimmed* name and persist. -/
def addDish (dish : IncomingDish) (newImagePath : String)
    (outcome : ImageWriteOutcome) (st : Store) : Except DishError Store :=
  if (st.db.find? (fun d => d.name == dish.name)).isSome then
    Except.error DishError.dishAlreadyExists
  else
    let processed := processDishImage newImagePath outcome st.images
    Except.ok
      { db := st.db ++ [{ name := jsTrim dish.name
                          imageFilePath := processed.1
                          description := dish.description.getD []
                          ratings := [] }]
        images := processed.2 }

/-- Embeds `deleteDish`: find the record by name (`NotFoundError` when
absent), delete its image file, splice the record out, persist. -/
def deleteDish (dishName : String) (st : Store) : Except DishError Store :=
  match removeFirst (fun d => d.name == dishName) st.db with
  | none => Except.error DishError.dishDoesNotExist
  | some r =>
    Except.ok { db := r.2, images := deleteDishImage st.images r.1.imageFilePath }

/-- The in-place field updates `editDish` performs on the found record:
trimmed new name, new description, and — only when the incoming image is
non-empty — the freshly processed image path. -/
def editDishUpdate (updated : IncomingDish) (newImagePath : String)
    (d : DishEntity) : DishEntity :=
  let d₁ := { d with name := jsTrim updated.name
                     description := updated.description.getD [] }
  if updated.image != "" then { d₁ with imageFilePath := newImagePath } else d₁

/-- Embeds `editDish`: find the record by the request's dish name
(`NotFoundError` when absent), overwrite name and description in place,
and when the incoming image is non-empty delete the old image file and
store the new one; persist.  Note: no uniqueness check against the other
records is performed. -/
def editDish (request : String × IncomingDish) (newImagePath : String)
    (outcome : ImageWriteOutcome) (st : Store) : Except DishError Store :=
  match mutateFirst (fun d => d.name == request.1)
      (editDishUpdate request.2 newImagePath) st.db with
  | none => Except.error DishError.dishDoesNotExist
  | some r =>
    if request.2.image != "" then
      let images₁ := deleteDishImage st.images r.1.imageFilePath
      Except.ok { db := r.2.2, images := (processDishImage newImagePath outcome images₁).2 }
    else
      Except.ok { db := r.2.2, images := st.images }

/-- The rating update `rateDish` performs on the found dish's `ratings`
array: overwrite the `rating` field of the first entry of the same user if
one exists, else push a new entry. -/
def applyRating (r : DishRating) (ratings : List DishRating) : List DishRating :=
  match mutateFirst (fun x => x.userId == r.userId)
      (fun x => { x with rating := r.rating }) ratings with
  | some u => u.2.2
  | none => ratings ++ [r]

/-- Embeds `rateDish`: find the dish by name (`NotFoundError` when
absent), apply the rating in place, persist, and return the new average
of the dish's ratings. -/
def rateDish (request : String × DishRating) (st : Store) :
    Except DishError (Store × ℚ) :=
  match mutateFirst (fun d => d.name == request.1)
      (fun d => { d with ratings := applyRating request.2 d.ratings }) st.db with
  | none => Except.error DishError.dishDoesNotExist
  | some r =>
    Except.ok ({ st with db := r.2.2 },
      avg (r.2.1.ratings.map (fun x => x.rating)))

/-!
Executable SHA-256 (`createHash('sha256')` in the source), over byte lists
(`List Nat`, each entry `< 256`), producing the 32-byte digest.  Words are
naturals reduced modulo `2 ^ 32`.
-/

namespace SHA256

/-- Truncation to a 32-bit word. -/
def w32 (x : Nat) : Nat := x % 4294967296

/-- Right rotation of a 32-bit word. -/
def rotr (n x : Nat) : Nat := w32 ((x >>> n) ||| (x <<< (32 - n)))

/-- Big sigma-0. -/
def bs0 (x : Nat) : Nat := (rotr 2 x) ^^^ (rotr 13 x) ^^^ (rotr 22 x)

/-- Big sigma-1. -/
def bs1 (x : Nat) : Nat := (rotr 6 x) ^^^ (rotr 11 x) ^^^ (rotr 25 x)

/-- Small sigma-0. -/
def ss0 (x : Nat) : Nat := (rotr 7 x) ^^^ (rotr 18 x) ^^^ (x >>> 3)

/-- Small sigma-1. -/
def ss1 (x : Nat) : Nat := (rotr 17 x) ^^^ (rotr 19 x) ^^^ (x >>> 10)

/-- Choice function. -/
def ch (x y z : Nat) : Nat := (x &&& y) ^^^ ((x ^^^ 4294967295) &&& z)

/-- Majority function. -/
def maj (x y z : Nat) : Nat := (x &&& y) ^^^ (x &&& z) ^^^ (y &&& z)

/-- Round constants. -/
def K : List Nat :=
  [1116352408, 1899447441, 3049323471, 3921009573, 961987163,
   1508970993, 2453635748, 2870763221, 3624381080, 310598401,
   607225278, 1426881987, 1925078388, 2162078206, 2614888103,
   3248222580, 3835390401, 4022224774, 264347078, 604807628,
   770255983, 1249150122, 1555081692, 1996064986, 2554220882,
   2821834349, 2952996808, 3210313671, 3336571891, 3584528711,
   113926993, 338241895, 666307205, 773529912, 1294757372,
   1396182291, 1695183700, 1986661051, 2177026350, 2456956037,
   2730485921, 2820302411, 3259730800, 3345764771, 3516065817,
   3600352804, 4094571909, 275423344, 430227734, 506948616,
   659060556, 883997877, 958139571, 1322822218, 1537002063,
   1747873779, 1955562222, 2024104815, 2227730452, 2361852424,
   2428436474, 2756734187, 3204031479, 3329325298]

/-- Initial hash state. -/
def H0 : List Nat :=
  [1779033703, 3144134277, 1013904242, 2773480762,
   1359893119, 2600822924, 528734635, 1541459225]

/-- The eight-byte big-endian encoding of a 64-bit length. -/
def be64 (n : Nat) : List Nat :=
  [(n >>> 56) % 256, (n >>> 48) % 256, (n >>> 40) % 256, (n >>> 32) % 256,
   (n >>> 24) % 256, (n >>> 16) % 256, (n >>> 8) % 256, n % 256]

/-- The four-byte big-endian encoding of a 32-bit word. -/
def be32 (n : Nat) : List Nat :=
  [(n >>> 24) % 256, (n >>> 16) % 256, (n >>> 8) % 256, n % 256]

/-- Merkle–Damgård padding: `0x80`, zeros, then the bit length. -/
def pad (msg : List Nat) : List Nat :=
  let z := (64 - ((msg.length + 9) % 64)) % 64
  msg ++ 0x80 :: List.replicate z 0 ++ be64 (8 * msg.length)

/-- Groups a byte list into big-endian 32-bit words. -/
def wordsOfBytes : List Nat → List Nat
  | a :: b :: c :: d :: rest =>
    (((a * 256 + b) * 256 + c) * 256 + d) :: wordsOfBytes rest
  | _ => []

/-- Extends the 16-word message schedule by `fuel` further words. -/
def extendSchedule : Nat → List Nat → List Nat
  | 0, ws => ws
  | fuel + 1, ws =>
    let n := ws.length
    extendSchedule fuel (ws ++
      [w32 (ss1 (ws.getD (n - 2) 0) + ws.getD (n - 7) 0 +
            ss0 (ws.getD (n - 15) 0) + ws.getD (n - 16) 0)])

/-- Working state of the compression function. -/
structure Regs where
  a : Nat
  b : Nat
  c : Nat
  d : Nat
  e : Nat
  f : Nat
  g : Nat
  h : Nat

/-- One compression round, consuming a `(k, w)` pair. -/
def round (r : Regs) (kw : Nat × Nat) : Regs :=
  let t1 := w32 (r.h + bs1 r.e + ch r.e r.f r.g + kw.1 + kw.2)
  let t2 := w32 (bs0 r.a + maj r.a r.b r.c)
  { a := w32 (t1 + t2), b := r.a, c := r.b, d := r.c,
    e := w32 (r.d + t1), f := r.e, g := r.f, h := r.g }

/-- Compresses one 64-byte block into the running hash state. -/
def compress (h : List Nat) (block : List Nat) : List Nat :=
  let ws := extendSchedule 48 (wordsOfBytes block)
  let init : Regs :=
    { a := h.getD 0 0, b := h.getD 1 0, c := h.getD 2 0, d := h.getD 3 0,
      e := h.getD 4 0, f := h.getD 5 0, g := h.getD 6 0, h := h.getD 7 0 }
  let r := (K.zip ws).foldl round init
  [w32 (h.getD 0 0 + r.a), w32 (h.getD 1 0 + r.b),
   w32 (h.getD 2 0 + r.c), w32 (h.getD 3 0 + r.d),
   w32 (h.getD 4 0 + r.e), w32 (h.getD 5 0 + r.f),
   w32 (h.getD 6 0 + r.g), w32 (h.getD 7 0 + r.h)]

/-- Splits a padded message into 64-byte blocks; the first argument is
recursion fuel (any value at least the list length works). -/
def blocksOf : Nat → List Nat → List (List Nat)
  | 0, _ => []
  | _, [] => []
  | fuel + 1, l => l.take 64 :: blocksOf fuel (l.drop 64)

/-- The 32-byte SHA-256 digest of a byte list. -/
def sha256 (msg : List Nat) : List Nat :=
  let padded := pad msg
  ((blocksOf padded.length padded).foldl compress H0).flatMap be32

end SHA256

/-- UTF-8 encoding of a single character. -/
def utf8Char (c : Char) : List Nat :=
  let n := c.toNat
  if n < 0x80 then [n]
  else if n < 0x800 then
    [0xC0 ||| (n >>> 6), 0x80 ||| (n &&& 0x3F)]
  else if n < 0x10000 then
    [0xE0 ||| (n >>> 12), 0x80 ||| ((n >>> 6) &&& 0x3F), 0x80 ||| (n &&& 0x3F)]
  else
    [0xF0 ||| (n >>> 18), 0x80 ||| ((n >>> 12) &&& 0x3F),
     0x80 ||| ((n >>> 6) &&& 0x3F), 0x80 ||| (n &&& 0x3F)]

/-- UTF-8 encoding of a string, as fed to `createHash(...).update`. -/
def utf8Bytes (s : String) : List Nat := s.data.flatMap utf8Char

/-!
The dish-of-the-day selector from `src/repositories/dishes.ts`.  The
module-level mutable cells `currentDay`, `dishOfTheDay` and `nonce` form
the selector state; the current calendar day (`getCurrentDay()`) and the
persisted collection (`read()`) are explicit inputs of each operation.
-/

/-- The sentinel dish installed when the collection is empty. -/
def emptyDish : DishEntity :=
  { name := "<empty>", imageFilePath := "placeholder.jpg",
    description := [], ratings := [] }

/-- The module-level selector state: `currentDay` and `dishOfTheDay` start
out unassigned (`none`), `nonce` starts at `0`. -/
structure SelectorState where
  currentDay : Option String
  dishOfTheDay : Option DishEntity
  nonce : Nat
deriving DecidableEq, Repr

/-- Embeds `parseInt(hash.substring(i * 8, i * 8 + 8), 16)`: hex digits
`8i .. 8i+8` of the digest's hex string are digest bytes `4i .. 4i+3`, and
parsing them in base 16 combines those bytes big-endian. -/
def hexChunk (digest : List Nat) (i : Nat) : Nat :=
  ((digest.getD (4 * i) 0 * 256 + digest.getD (4 * i + 1) 0) * 256 +
      digest.getD (4 * i + 2) 0) * 256 + digest.getD (4 * i + 3) 0

/-- The bit pattern accumulated by the loop
`for (i = 0; i < 8; i++) numericHash ^= parseInt(...)`; JavaScript's `^`
acts on 32-bit two's-complement bit patterns, and XOR of the patterns is
XOR of the unsigned values. -/
def numericHashBits (digest : List Nat) : Nat :=
  (List.range 8).foldl (fun acc i => acc ^^^ hexChunk digest i) 0

/-- The signed 32-bit reading JavaScript gives the accumulated `^` result. -/
def toInt32 (bits : Nat) : Int :=
  if bits < 2147483648 then (bits : Int) else (bits : Int) - 4294967296

/-- Embeds `Math.abs(numericHash % dishes.length)`: JavaScript `%` is the
truncated remainder (`Int.tmod`) of the signed 32-bit `numericHash`. -/
def dishIndex (digest : List Nat) (len : Nat) : Nat :=
  ((toInt32 (numericHashBits digest)).tmod (len : Int)).natAbs

/-- The full index computation of `selectDishOfTheDay` as a function of
day, nonce and collection size: SHA-256 of the UTF-8 bytes of
`currentDay + nonce` (string concatenation with the nonce's decimal
representation), then the XOR-fold and modulus. -/
def selectionIndex (day : String) (nonce : Nat) (len : Nat) : Nat :=
  dishIndex (SHA256.sha256 (utf8Bytes (day ++ Nat.repr nonce))) len

/-- Embeds `selectDishOfTheDay`: store today's day string, read the
collection, install the sentinel when it is empty, otherwise hash
`currentDay + nonce` and pick the dish at the folded index. -/
def selectDishOfTheDay (today : String) (dishes : List DishEntity)
    (s : SelectorState) : SelectorState :=
  if dishes.length = 0 then
    { s with currentDay := some today, dishOfTheDay := some emptyDish }
  else
    { s with currentDay := some today,
             dishOfTheDay :=
               some (dishes.getD (selectionIndex today s.nonce dishes.length)
                 emptyDish) }

/-- Embeds `skipDishOfTheDay`: `nonce++` then an eager
`selectDishOfTheDay()`. -/
def skipDishOfTheDay (today : String) (dishes : List DishEntity)
    (s : SelectorState) : SelectorState :=
  selectDishOfTheDay today dishes { s with nonce := s.nonce + 1 }

/-- The transport projection shared by `getAllDishes` and
`getDishOfTheDay`: copy the record fields, average the ratings, and look
up the requesting user's own rating. -/
def toView (d : DishEntity) (userId : String) : DishTransport :=
  { name := d.name
    imageFilePath := d.imageFilePath
    description := d.description
    rating := avg (d.ratings.map (fun r => r.rating))
    yourRating := (d.ratings.find? (fun r => r.userId == userId)).map
      (fun r => r.rating) }

/-- Embeds `getDishOfTheDay`: recompute the selection when `currentDay` or
`dishOfTheDay` is unassigned or the stored day is stale, then return the
transport view of the cached entity — without re-reading the collection in
the cache-hit case. -/
def getDishOfTheDay (userId : String) (today : String)
    (dishes : List DishEntity) (s : SelectorState) :
    SelectorState × DishTransport :=
  let s' :=
    if s.currentDay = none ∨ s.dishOfTheDay = none ∨ s.currentDay ≠ some today
    then selectDishOfTheDay today dishes s
    else s
  (s', toView (s'.dishOfTheDay.getD emptyDish) userId)

/-!
Definitions following the words of claim C1 / spec §4.3, used to compare
the claimed selection algorithm with the one embedded from the source.
-/

/-- The value of a byte sequence read as a big-endian unsigned integer. -/
def beValue (bytes : List Nat) : Nat :=
  bytes.foldl (fun acc b => acc * 256 + b) 0

/-- Modelled from the words of claim C1: "partition the digest into `n`
consecutive 4-byte big-endian unsigned integers" — the first `n` groups of
four consecutive digest bytes, each read big-endian.  The claim states
`n = 4`; the source folds `n = 8` chunks. -/
def digestChunks : Nat → List Nat → List Nat
  | 0, _ => []
  | n + 1, digest => beValue (digest.take 4) :: digestChunks n (digest.drop 4)

/-- The claim's XOR-fold of the first `n` 4-byte chunks of a digest. -/
def xorFoldBits (n : Nat) (digest : List Nat) : Nat :=
  (digestChunks n digest).foldl (fun acc c => acc ^^^ c) 0

/-- Modelled from the words of claim C1: the selected index obtained by
XOR-folding the first `n` 4-byte big-endian chunks of the SHA-256 digest
of the day string concatenated with the nonce's decimal representation,
reading the folded 32-bit pattern the way the platform does (two's
complement, so its magnitude is `2 ^ 32 - bits` when the top bit is set)
and reducing the absolute value modulo the number of dishes. -/
def claimedIndex (n : Nat) (day : String) (nonce : Nat) (len : Nat) : Nat :=
  let bits := xorFoldBits n (SHA256.sha256 (utf8Bytes (day ++ Nat.repr nonce)))
  (if bits < 2147483648 then bits else 4294967296 - bits) % len

/-!
Theorems settling the claims.
-/

/-- Claim C2 (code bug): starting from a collection whose names are
trimmed, non-empty and pairwise distinct (`"Soup"`, `"Salad"`), the
successful edit that renames `"Salad"` to `"Soup"` persists a collection
with two records named `"Soup"` — `editDish` performs no uniqueness check,
so name uniqueness does not hold after every successful write. -/
theorem editDish_breaks_name_uniqueness :
    (["Soup", "Salad"] : List String).Nodup ∧
    ∃ st' : Store,
      editDish ("Salad", ⟨"Soup", "", none⟩) "unused.jpg" ImageWriteOutcome.ok
          ⟨[⟨"Soup", "s.jpg", [], []⟩, ⟨"Salad", "l.jpg", [], []⟩],
            ["s.jpg", "l.jpg"]⟩ = Except.ok st' ∧
      st'.db.map DishEntity.name = ["Soup", "Soup"] ∧
      ¬ (st'.db.map DishEntity.name).Nodup := by
  exact ⟨by decide, _, rfl, rfl, by decide⟩

/-- Claim C3 (code bug): adding the dish named `" Soup"` to a collection
that already stores the (trimmed) name `"Soup"` succeeds instead of
failing with the conflict error, and persists a duplicate `"Soup"` record:
`addDish` compares the *untrimmed* incoming name against the stored names
and trims only when storing. -/
theorem addDish_accepts_whitespace_duplicate :
    validateIncomingDish ⟨" Soup", "imagedata", none⟩ = none ∧
    jsTrim " Soup" = "Soup" ∧
    ∃ st' : Store,
      addDish ⟨" Soup", "imagedata", none⟩ "new.jpg" ImageWriteOutcome.ok
          ⟨[⟨"Soup", "soup.jpg", [], []⟩], ["soup.jpg"]⟩ = Except.ok st' ∧
      st'.db.map DishEntity.name = ["Soup", "Soup"] := by
  exact ⟨rfl, by decide, _, rfl, rfl⟩

/-- Claim C4 (code bug): when the external image write fails during an
add, `addDish` nevertheless succeeds and persists a record whose
`imageFilePath` names the file that was never stored — the `gm` write
callback in `processDishImage` ignores its error argument, so the failure
does not occur before the record is appended and persisted. -/
theorem addDish_persists_record_on_failed_image_write :
    ∃ st' : Store,
      addDish ⟨"Stew", "img", none⟩ "x.jpg" ImageWriteOutcome.writeFailed
          ⟨[], []⟩ = Except.ok st' ∧
      st'.db.map DishEntity.imageFilePath = ["x.jpg"] ∧
      st'.images = [] ∧
      ¬ "x.jpg" ∈ st'.images := by
  exact ⟨_, rfl, rfl, rfl, by decide⟩

/-- A helper for the first-match combinators: no element matches, so the
scan misses. -/
theorem removeFirst_eq_none {p : α → Bool} {l : List α}
    (h : ∀ x ∈ l, p x = false) : removeFirst p l = none := by
  induction l with
  | nil => rfl
  | cons x xs ih =>
    simp only [removeFirst, h x (List.mem_cons_self x xs)]
    simp [ih (fun y hy => h y (List.mem_cons_of_mem x hy))]

/-- A helper for the first-match combinators: the scan stops at the first
matching element and drops exactly it. -/
theorem removeFirst_append {p : α → Bool} {l₁ : List α} {d : α} (l₂ : List α)
    (h₁ : ∀ x ∈ l₁, p x = false) (hd : p d = true) :
    removeFirst p (l₁ ++ d :: l₂) = some (d, l₁ ++ l₂) := by
  induction l₁ with
  | nil => simp [removeFirst, hd]
  | cons x xs ih =>
    simp only [List.cons_append, removeFirst, h₁ x (List.mem_cons_self x xs)]
    simp [ih (fun y hy => h₁ y (List.mem_cons_of_mem x hy))]

/-- A helper for the first-match combinators: no element matches, so the
mutating scan misses. -/
theorem mutateFirst_eq_none {p : α → Bool} {f : α → α} {l : List α}
    (h : ∀ x ∈ l, p x = false) : mutateFirst p f l = none := by
  induction l with
  | nil => rfl
  | cons x xs ih =>
    simp only [mutateFirst, h x (List.mem_cons_self x xs)]
    simp [ih (fun y hy => h y (List.mem_cons_of_mem x hy))]

/-- A helper for the first-match combinators: the mutating scan stops at
the first matching element and replaces exactly it. -/
theorem mutateFirst_append {p : α → Bool} {f : α → α} {l₁ : List α} {d : α}
    (l₂ : List α) (h₁ : ∀ x ∈ l₁, p x = false) (hd : p d = true) :
    mutateFirst p f (l₁ ++ d :: l₂) = some (d, f d, l₁ ++ f d :: l₂) := by
  induction l₁ with
  | nil => simp [mutateFirst, hd]
  | cons x xs ih =>
    simp only [List.cons_append, mutateFirst, h₁ x (List.mem_cons_self x xs)]
    simp [ih (fun y hy => h₁ y (List.mem_cons_of_mem x hy))]

/-- Claim C6 (confirmed): deleting a name that matches no record fails
with the not-found error (and, the single write being unreached, leaves
the persisted collection and the image files untouched); deleting a name
whose first match is `d` removes `d`'s image file through
`deleteDishImage` — a no-op rather than an error when the file is absent —
removes exactly the record `d`, and persists the remaining collection. -/
theorem deleteDish_spec (st : Store) (name : String) :
    ((∀ x ∈ st.db, (x.name == name) = false) →
      deleteDish name st = Except.error DishError.dishDoesNotExist) ∧
    (∀ l₁ d l₂, st.db = l₁ ++ d :: l₂ →
      (∀ x ∈ l₁, (x.name == name) = false) → (d.name == name) = true →
      deleteDish name st =
        Except.ok { db := l₁ ++ l₂,
                    images := deleteDishImage st.images d.imageFilePath }) ∧
    (∀ images path, ¬ path ∈ images → deleteDishImage images path = images) := by
  refine ⟨fun h => ?_, fun l₁ d l₂ hdb h₁ hd => ?_, fun images path h => ?_⟩
  · simp [deleteDish, removeFirst_eq_none h]
  · simp [deleteDish, hdb, removeFirst_append l₂ h₁ hd]
  · simp [deleteDishImage, h]

/-- A closed instance of `deleteDish_spec`: deleting `"Soup"` from the
one-dish store removes the record and its image file, and the absent-file
cleanup is a no-op. -/
theorem deleteDish_spec_witness :
    deleteDish "Soup" ⟨[⟨"Soup", "s.jpg", [], []⟩], ["s.jpg"]⟩ =
      Except.ok { db := ([] : List DishEntity),
                  images := deleteDishImage ["s.jpg"] "s.jpg" } ∧
    deleteDishImage [] "gone.jpg" = [] := by
  refine ⟨?_, ?_⟩
  · exact (deleteDish_spec ⟨[⟨"Soup", "s.jpg", [], []⟩], ["s.jpg"]⟩ "Soup").2.1
      [] ⟨"Soup", "s.jpg", [], []⟩ [] rfl (by decide) (by decide)
  · exact (deleteDish_spec ⟨[], []⟩ "unused").2.2 [] "gone.jpg" (by decide)

/-- Claim C5 (confirmed): rating a dish that a user has not yet rated
appends one entry; rating it again as the same user overwrites that
entry's value rather than appending, so the persisted dish ends up with
exactly one rating entry for that user, valued at the second rating; both
operations persist the updated collection and return the arithmetic mean
of the dish's ratings after the update. -/
theorem rateDish_overwrite_spec (l₁ l₂ : List DishEntity) (d : DishEntity)
    (images : List String) (name u : String) (r₁ r₂ : ℚ)
    (h₁ : ∀ x ∈ l₁, (x.name == name) = false)
    (hd : (d.name == name) = true)
    (hu : ∀ x ∈ d.ratings, (x.userId == u) = false) :
    rateDish (name, ⟨u, r₁⟩) ⟨l₁ ++ d :: l₂, images⟩ =
      Except.ok
        (⟨l₁ ++ { d with ratings := d.ratings ++ [⟨u, r₁⟩] } :: l₂, images⟩,
          avg ((d.ratings ++ [(⟨u, r₁⟩ : DishRating)]).map
            (fun x => x.rating))) ∧
    rateDish (name, ⟨u, r₂⟩)
        ⟨l₁ ++ { d with ratings := d.ratings ++ [⟨u, r₁⟩] } :: l₂, images⟩ =
      Except.ok
        (⟨l₁ ++ { d with ratings := d.ratings ++ [⟨u, r₂⟩] } :: l₂, images⟩,
          avg ((d.ratings ++ [(⟨u, r₂⟩ : DishRating)]).map
            (fun x => x.rating))) ∧
    (d.ratings ++ [(⟨u, r₂⟩ : DishRating)]).filter (fun x => x.userId == u) =
      [⟨u, r₂⟩] := by
  refine ⟨?_, ?_, ?_⟩
  · have happ := @mutateFirst_append DishEntity (fun x => x.name == name)
      (fun x => { x with ratings := applyRating ⟨u, r₁⟩ x.ratings })
      l₁ d l₂ h₁ hd
    simp only [rateDish, happ]
    simp [applyRating, mutateFirst_eq_none hu]
  · have happ := @mutateFirst_append DishEntity (fun x => x.name == name)
      (fun x => { x with ratings := applyRating ⟨u, r₂⟩ x.ratings })
      l₁ { d with ratings := d.ratings ++ [⟨u, r₁⟩] } l₂ h₁ hd
    have hinner := @mutateFirst_append DishRating (fun x => x.userId == u)
      (fun x => { x with rating := r₂ })
      d.ratings ⟨u, r₁⟩ [] hu (by simp)
    simp only [rateDish, happ]
    simp [applyRating, hinner]
  · have hnil : d.ratings.filter (fun x => x.userId == u) = [] :=
      List.filter_eq_nil_iff.mpr (fun a ha => by simp [hu a ha])
    simp [List.filter_append, hnil]

/-- A closed instance of `rateDish_overwrite_spec`: rating `dishA` as
`user1` with 3 and then 5 leaves exactly one rating entry for `user1`,
valued 5, and returns the average of that single entry. -/
theorem rateDish_overwrite_spec_witness :
    rateDish ("dishA", ⟨"user1", 3⟩)
        ⟨[⟨"dishA", "a.jpg", [], []⟩], ["a.jpg"]⟩ =
      Except.ok
        (⟨[⟨"dishA", "a.jpg", [], [⟨"user1", 3⟩]⟩], ["a.jpg"]⟩,
          avg [(3 : ℚ)]) ∧
    rateDish ("dishA", ⟨"user1", 5⟩)
        ⟨[⟨"dishA", "a.jpg", [], [⟨"user1", 3⟩]⟩], ["a.jpg"]⟩ =
      Except.ok
        (⟨[⟨"dishA", "a.jpg", [], [⟨"user1", 5⟩]⟩], ["a.jpg"]⟩,
          avg [(5 : ℚ)]) ∧
    ([(⟨"user1", 5⟩ : DishRating)]).filter (fun x => x.userId == "user1") =
      [⟨"user1", 5⟩] :=
  rateDish_overwrite_spec [] [] ⟨"dishA", "a.jpg", [], []⟩ ["a.jpg"]
    "dishA" "user1" 3 5 (by decide) (by decide) (by decide)

/-- A helper: `selectDishOfTheDay` writes only the day and the cached
dish; the nonce is untouched. -/
theorem selectDishOfTheDay_nonce (today : String) (dishes : List DishEntity)
    (s : SelectorState) : (selectDishOfTheDay today dishes s).nonce = s.nonce := by
  simp only [selectDishOfTheDay]
  split <;> rfl

/-- A helper: `selectDishOfTheDay` always stores today's day string. -/
theorem selectDishOfTheDay_currentDay (today : String)
    (dishes : List DishEntity) (s : SelectorState) :
    (selectDishOfTheDay today dishes s).currentDay = some today := by
  simp only [selectDishOfTheDay]
  split <;> rfl

/-- A helper: `selectDishOfTheDay` always caches some dish (a real record
or the sentinel). -/
theorem selectDishOfTheDay_isSome (today : String) (dishes : List DishEntity)
    (s : SelectorState) :
    (selectDishOfTheDay today dishes s).dishOfTheDay.isSome = true := by
  simp only [selectDishOfTheDay]
  split <;> rfl

/-- A helper: each skip adds exactly one to the nonce. -/
theorem skipDishOfTheDay_nonce (today : String) (dishes : List DishEntity)
    (s : SelectorState) :
    (skipDishOfTheDay today dishes s).nonce = s.nonce + 1 := by
  simp [skipDishOfTheDay, selectDishOfTheDay_nonce]

/-- Claim C7 (confirmed): the selection is a pure function of the day
string, the nonce, and the dish collection (contents and order): two runs
of `selectDishOfTheDay` with the same day, the same nonce and the same
collection install the same cached dish and day, whatever the rest of the
prior selector states was. -/
theorem selectDishOfTheDay_deterministic (day : String)
    (dishes : List DishEntity) (s₁ s₂ : SelectorState)
    (h : s₁.nonce = s₂.nonce) :
    (selectDishOfTheDay day dishes s₁).dishOfTheDay =
      (selectDishOfTheDay day dishes s₂).dishOfTheDay ∧
    (selectDishOfTheDay day dishes s₁).currentDay =
      (selectDishOfTheDay day dishes s₂).currentDay := by
  simp [selectDishOfTheDay, h]

/-- A closed instance of `selectDishOfTheDay_deterministic` at two
different prior states sharing the nonce. -/
theorem selectDishOfTheDay_deterministic_witness :
    (selectDishOfTheDay "2024-0-1" [⟨"Soup", "s.jpg", [], []⟩]
        ⟨none, none, 5⟩).dishOfTheDay =
      (selectDishOfTheDay "2024-0-1" [⟨"Soup", "s.jpg", [], []⟩]
        ⟨some "stale", some emptyDish, 5⟩).dishOfTheDay :=
  (selectDishOfTheDay_deterministic "2024-0-1" [⟨"Soup", "s.jpg", [], []⟩]
    ⟨none, none, 5⟩ ⟨some "stale", some emptyDish, 5⟩ rfl).1

/-- Claim C8 (confirmed): a skip increments the nonce by exactly one and
eagerly recomputes the cached selection (it *is* a recomputation at the
incremented nonce), a read directly after the skip hits the fresh cache —
no further recomputation — and across any sequence of skips the nonce
grows by the number of skips, so it never decreases. -/
theorem skipDishOfTheDay_spec (today : String) (dishes : List DishEntity)
    (s : SelectorState) (u : String) :
    (skipDishOfTheDay today dishes s).nonce = s.nonce + 1 ∧
    skipDishOfTheDay today dishes s =
      selectDishOfTheDay today dishes { s with nonce := s.nonce + 1 } ∧
    getDishOfTheDay u today dishes (skipDishOfTheDay today dishes s) =
      (skipDishOfTheDay today dishes s,
        toView ((skipDishOfTheDay today dishes s).dishOfTheDay.getD emptyDish)
          u) ∧
    ∀ evts : List (String × List DishEntity),
      (evts.foldl (fun st e => skipDishOfTheDay e.1 e.2 st) s).nonce =
        s.nonce + evts.length := by
  refine ⟨skipDishOfTheDay_nonce today dishes s, rfl, ?_, ?_⟩
  · have hday := selectDishOfTheDay_currentDay today dishes
      { s with nonce := s.nonce + 1 }
    have hsome := selectDishOfTheDay_isSome today dishes
      { s with nonce := s.nonce + 1 }
    have hcond :
        ¬((skipDishOfTheDay today dishes s).currentDay = none ∨
          (skipDishOfTheDay today dishes s).dishOfTheDay = none ∨
          (skipDishOfTheDay today dishes s).currentDay ≠ some today) := by
      simp only [skipDishOfTheDay, hday]
      simp [Option.isSome_iff_ne_none.mp hsome]
    simp [getDishOfTheDay, hcond]
  · intro evts
    induction evts generalizing s with
    | nil => rfl
    | cons e rest ih =>
      simp only [List.foldl_cons, List.length_cons, ih, skipDishOfTheDay_nonce]
      omega

/-- Claim C9 (confirmed): with an empty collection the selection never
fails; `selectDishOfTheDay` installs the sentinel dish (fixed placeholder
name, placeholder image path, no description, no ratings), and a read that
recomputes (here: nothing cached yet) returns the sentinel's view — name
`"<empty>"`, zero aggregate rating, no description, no own rating — rather
than an error. -/
theorem emptyCollection_sentinel (s : SelectorState) (today u : String) :
    (selectDishOfTheDay today [] s).dishOfTheDay = some emptyDish ∧
    emptyDish = { name := "<empty>", imageFilePath := "placeholder.jpg",
                  description := [], ratings := [] } ∧
    (s.dishOfTheDay = none →
      (getDishOfTheDay u today [] s).2 =
        { name := "<empty>", imageFilePath := "placeholder.jpg",
          description := [], rating := 0, yourRating := none }) := by
  refine ⟨by simp [selectDishOfTheDay], rfl, fun h => ?_⟩
  simp [getDishOfTheDay, h, selectDishOfTheDay, toView, emptyDish, avg]

/-- A closed instance of `emptyCollection_sentinel`: reading the dish of
the day on a fresh selector over an empty collection yields the sentinel
view. -/
theorem emptyCollection_sentinel_witness :
    (getDishOfTheDay "alice" "2024-0-1" [] ⟨none, none, 0⟩).2 =
      { name := "<empty>", imageFilePath := "placeholder.jpg",
        description := [], rating := 0, yourRating := none } :=
  (emptyCollection_sentinel ⟨none, none, 0⟩ "2024-0-1" "alice").2.2 rfl

/-- Claim C10 (confirmed): while the cached day equals the current day and
a dish is cached, `getDishOfTheDay` ignores the persisted collection
entirely: it returns the view of the entity captured at the last
recomputation, and its result is the same for any two collections — in
particular, mutations such as rating or deleting the selected dish since
the last recomputation are not reflected. -/
theorem getDishOfTheDay_uses_cache (s : SelectorState) (today u : String)
    (d : DishEntity) (dishes dishes' : List DishEntity)
    (h₁ : s.currentDay = some today) (h₂ : s.dishOfTheDay = some d) :
    getDishOfTheDay u today dishes s = (s, toView d u) ∧
    getDishOfTheDay u today dishes s = getDishOfTheDay u today dishes' s := by
  have hcond :
      ¬(s.currentDay = none ∨ s.dishOfTheDay = none ∨
        s.currentDay ≠ some today) := by
    simp [h₁, h₂]
  constructor
  · simp only [getDishOfTheDay, if_neg hcond]
    simp [h₂]
  · simp only [getDishOfTheDay, if_neg hcond]

/-- A closed instance of `getDishOfTheDay_uses_cache`: the cached dish
`"Soup"` is still returned as dish of the day after the collection was
emptied (the record deleted), as long as the cached day is current. -/
theorem getDishOfTheDay_uses_cache_witness :
    getDishOfTheDay "alice" "2024-0-1" []
        ⟨some "2024-0-1", some ⟨"Soup", "s.jpg", [], []⟩, 0⟩ =
      (⟨some "2024-0-1", some ⟨"Soup", "s.jpg", [], []⟩, 0⟩,
        toView ⟨"Soup", "s.jpg", [], []⟩ "alice") :=
  (getDishOfTheDay_uses_cache
    ⟨some "2024-0-1", some ⟨"Soup", "s.jpg", [], []⟩, 0⟩ "2024-0-1" "alice"
    ⟨"Soup", "s.jpg", [], []⟩ [] [] rfl rfl).1

/-- A helper: every byte of `be32` is below 256. -/
theorem be32_lt (w : Nat) : ∀ b ∈ SHA256.be32 w, b < 256 := by
  intro b hb
  simp only [SHA256.be32, List.mem_cons, List.not_mem_nil, or_false] at hb
  rcases hb with h | h | h | h <;> subst h <;> exact Nat.mod_lt _ (by omega)

/-- A helper: every byte of a SHA-256 digest is below 256. -/
theorem sha256_bytes_lt (msg : List Nat) :
    ∀ b ∈ SHA256.sha256 msg, b < 256 := by
  intro b hb
  simp only [SHA256.sha256, List.mem_flatMap] at hb
  obtain ⟨w, _, hw⟩ := hb
  exact be32_lt w b hw

/-- A helper: `compress` always returns an eight-word state. -/
theorem compress_length (h block : List Nat) :
    (SHA256.compress h block).length = 8 := rfl

/-- A helper: folding `compress` preserves the eight-word state length. -/
theorem foldl_compress_length (bs : List (List Nat)) :
    ∀ h : List Nat, h.length = 8 →
      (bs.foldl SHA256.compress h).length = 8 := by
  induction bs with
  | nil => intro h hh; exact hh
  | cons b rest ih =>
    intro h _
    exact ih (SHA256.compress h b) (compress_length h b)

/-- A helper: `flatMap be32` produces four bytes per word. -/
theorem length_flatMap_be32 (l : List Nat) :
    (l.flatMap SHA256.be32).length = 4 * l.length := by
  induction l with
  | nil => rfl
  | cons w rest ih =>
    simp only [List.flatMap_cons, List.length_append, ih, List.length_cons]
    simp [SHA256.be32]
    omega

/-- A helper: a SHA-256 digest is 32 bytes long. -/
theorem sha256_length (msg : List Nat) : (SHA256.sha256 msg).length = 32 := by
  simp only [SHA256.sha256, length_flatMap_be32]
  rw [foldl_compress_length _ SHA256.H0 rfl]

/-- A helper: a `getD`-read byte of a bounded list is bounded (the default
0 is, too). -/
theorem getD_lt_256 {l : List Nat} (hl : ∀ b ∈ l, b < 256) (n : Nat) :
    l.getD n 0 < 256 := by
  rcases h : l[n]? with _ | a
  · simp [List.getD_eq_getElem?_getD, h]
  · simp only [List.getD_eq_getElem?_getD, h, Option.getD_some]
    exact hl a (List.getElem?_mem h)

/-- A helper: each 4-byte big-endian chunk of a byte list fits in 32
bits. -/
theorem hexChunk_lt (digest : List Nat) (hd : ∀ b ∈ digest, b < 256)
    (i : Nat) : hexChunk digest i < 4294967296 := by
  have h0 := getD_lt_256 hd (4 * i)
  have h1 := getD_lt_256 hd (4 * i + 1)
  have h2 := getD_lt_256 hd (4 * i + 2)
  have h3 := getD_lt_256 hd (4 * i + 3)
  simp only [hexChunk]
  omega

/-- A helper: an XOR-fold of 32-bit values stays within 32 bits. -/
theorem foldl_xor_lt (f : Nat → Nat) (l : List Nat) :
    ∀ acc : Nat, acc < 4294967296 → (∀ i ∈ l, f i < 4294967296) →
      l.foldl (fun a i => a ^^^ f i) acc < 4294967296 := by
  induction l with
  | nil => intro acc ha _; exact ha
  | cons x rest ih =>
    intro acc ha hf
    refine ih (acc ^^^ f x) ?_ (fun i hi => hf i (List.mem_cons_of_mem x hi))
    have : (4294967296 : Nat) = 2 ^ 32 := by norm_num
    rw [this] at ha ⊢
    exact Nat.xor_lt_two_pow ha
      (this ▸ hf x (List.mem_cons_self x rest))

/-- A helper: the folded loop value fits in 32 bits. -/
theorem numericHashBits_lt (digest : List Nat)
    (hd : ∀ b ∈ digest, b < 256) :
    numericHashBits digest < 4294967296 := by
  exact foldl_xor_lt (hexChunk digest) (List.range 8) 0 (by omega)
    (fun i _ => hexChunk_lt digest hd i)

/-- A helper: on a list with at least four elements, the big-endian value
of the first four-byte group is chunk 0. -/
theorem beValue_take4 (l : List Nat) (h : 4 ≤ l.length) :
    beValue (l.take 4) = hexChunk l 0 := by
  rcases l with _ | ⟨a, _ | ⟨b, _ | ⟨c, _ | ⟨d, rest⟩⟩⟩⟩
  · simp at h
  · simp at h
  · simp at h
  · simp at h
  · simp [beValue, hexChunk]
    try ring

/-- A helper: chunk `i` of the tail obtained by dropping one four-byte
group is chunk `i + 1` of the whole list. -/
theorem hexChunk_drop (l : List Nat) (i : Nat) :
    hexChunk (l.drop 4) i = hexChunk l (i + 1) := by
  have h : ∀ j : Nat, (l.drop 4).getD j 0 = l.getD (4 + j) 0 := by
    intro j
    simp [List.getD_eq_getElem?_getD, List.getElem?_drop]
  simp only [hexChunk, h]
  have e0 : 4 + 4 * i = 4 * (i + 1) := by ring
  have e1 : 4 + (4 * i + 1) = 4 * (i + 1) + 1 := by ring
  have e2 : 4 + (4 * i + 2) = 4 * (i + 1) + 2 := by ring
  have e3 : 4 + (4 * i + 3) = 4 * (i + 1) + 3 := by ring
  rw [e0, e1, e2, e3]

set_option maxRecDepth 4000 in
/-- A helper: the claim's four-byte partition, read big-endian, lists
exactly the chunks the source's hex-substring parsing produces. -/
theorem digestChunks_eq (n : Nat) :
    ∀ l : List Nat, 4 * n ≤ l.length →
      digestChunks n l = (List.range n).map (fun i => hexChunk l i) := by
  induction n with
  | zero => intro l _; rfl
  | succ m ih =>
    intro l hl
    have h4 : 4 ≤ l.length := by omega
    have htail : 4 * m ≤ (l.drop 4).length := by
      simp only [List.length_drop]; omega
    rw [List.range_succ_eq_map, List.map_cons]
    show digestChunks (m + 1) l = hexChunk l 0 :: _
    rw [show digestChunks (m + 1) l =
        beValue (l.take 4) :: digestChunks m (l.drop 4) from rfl,
      beValue_take4 l h4, ih (l.drop 4) htail, List.map_map]
    refine congrArg _ (List.map_congr_left fun i _ => ?_)
    simp only [Function.comp_apply, hexChunk_drop, Nat.succ_eq_add_one]

/-- A helper: on a 32-byte digest, the claim's eight-chunk XOR-fold equals
the loop value accumulated by the source. -/
theorem xorFoldBits_eight (digest : List Nat) (h : 32 ≤ digest.length) :
    xorFoldBits 8 digest = numericHashBits digest := by
  simp only [xorFoldBits, digestChunks_eq 8 digest (by omega),
    List.foldl_map, numericHashBits]

/-- A helper: the magnitude of the truncated remainder of a negated
natural is its remainder. -/
theorem natAbs_neg_tmod (k len : Nat) :
    ((-(k : Int)).tmod (len : Int)).natAbs = k % len := by
  cases k with
  | zero => simp
  | succ j =>
    have h1 : (-(((j + 1) : Nat) : Int)) = Int.negSucc j := by
      rw [Int.negSucc_eq]; push_cast; ring
    rw [h1]
    show ((Int.negSucc j).tmod (Int.ofNat len)).natAbs = (j + 1) % len
    rw [show (Int.negSucc j).tmod (Int.ofNat len) =
          -Int.ofNat (Nat.succ j % len) from rfl,
      Int.natAbs_neg]
    rfl

/-- A helper: `Math.abs` of JavaScript's truncated signed remainder equals
the two's-complement magnitude of the 32-bit pattern, reduced modulo the
length. -/
theorem dishIndex_eq (digest : List Nat) (len : Nat)
    (hb : numericHashBits digest < 4294967296) :
    dishIndex digest len =
      (if numericHashBits digest < 2147483648 then numericHashBits digest
       else 4294967296 - numericHashBits digest) % len := by
  unfold dishIndex toInt32
  by_cases h : numericHashBits digest < 2147483648
  · rw [if_pos h, if_pos h, ← Int.ofNat_tmod, Int.natAbs_ofNat]
  · rw [if_neg h, if_neg h]
    have hneg : ((numericHashBits digest : Int) - 4294967296) =
        -(((4294967296 - numericHashBits digest : Nat)) : Int) := by
      omega
    rw [hneg, natAbs_neg_tmod]

/-- A helper: the source's selection index coincides with the eight-chunk
form of the claim's algorithm. -/
theorem selectionIndex_eq_claimedIndex (day : String) (nonce : Nat)
    (len : Nat) :
    selectionIndex day nonce len = claimedIndex 8 day nonce len := by
  unfold selectionIndex claimedIndex
  have hbytes := sha256_bytes_lt (utf8Bytes (day ++ Nat.repr nonce))
  have hlen := sha256_length (utf8Bytes (day ++ Nat.repr nonce))
  rw [xorFoldBits_eight _ (by omega)]
  exact dishIndex_eq _ len (numericHashBits_lt _ hbytes)

set_option maxRecDepth 100000 in
/-- Claim C1 (counterexample): at day `"2024-5-7"`, nonce `0` and a
three-dish collection, the claim's four-chunk XOR-fold yields index 1
while the source selects index 0 (the first dish): the source folds all
*eight* consecutive 4-byte big-endian chunks of the 32-byte digest, not
four.  The four-chunk folded value here is below `2 ^ 31`, so the claim's
"unsigned" reading and its "absolute value" reading agree on index 1. -/
theorem selectionIndex_fourChunks_false :
    claimedIndex 4 "2024-5-7" 0 3 = 1 ∧
    selectionIndex "2024-5-7" 0 3 = 0 ∧
    xorFoldBits 4 (SHA256.sha256 (utf8Bytes ("2024-5-7" ++ Nat.repr 0))) <
      2147483648 ∧
    (selectDishOfTheDay "2024-5-7"
        [⟨"A", "a.jpg", [], []⟩, ⟨"B", "b.jpg", [], []⟩,
          ⟨"C", "c.jpg", [], []⟩]
        ⟨none, none, 0⟩).dishOfTheDay = some ⟨"A", "a.jpg", [], []⟩ ∧
    claimedIndex 4 "2024-5-7" 0 3 ≠ selectionIndex "2024-5-7" 0 3 := by
  refine ⟨rfl, rfl, by decide, rfl, by decide⟩

/-- Claim C1 (amended, confirmed): for every day string, nonce and
non-empty ordered dish list, the selection takes the SHA-256 digest of the
UTF-8 concatenation of the day and the nonce's decimal representation,
partitions the digest into *eight* consecutive 4-byte big-endian unsigned
integers, XOR-folds them into a single 32-bit value (read by the platform
as a signed two's-complement integer), and uses its absolute value modulo
the number of dishes as the selected index; the dish at that index is the
selection, and the index is always in range. -/
theorem selectDishOfTheDay_amendedC1 (day : String)
    (dishes : List DishEntity) (s : SelectorState) (hne : dishes ≠ []) :
    claimedIndex 8 day s.nonce dishes.length < dishes.length ∧
    (selectDishOfTheDay day dishes s).dishOfTheDay =
      some (dishes.getD (claimedIndex 8 day s.nonce dishes.length)
        emptyDish) := by
  have hlen : dishes.length ≠ 0 := by
    intro h
    exact hne (List.eq_nil_of_length_eq_zero h)
  constructor
  · unfold claimedIndex
    exact Nat.mod_lt _ (Nat.pos_of_ne_zero hlen)
  · unfold selectDishOfTheDay
    rw [if_neg hlen]
    show some (dishes.getD (selectionIndex day s.nonce dishes.length)
      emptyDish) = _
    rw [selectionIndex_eq_claimedIndex]

/-- A closed instance of `selectDishOfTheDay_amendedC1` on a three-dish
collection. -/
theorem selectDishOfTheDay_amendedC1_witness :
    claimedIndex 8 "2024-5-7" 0 3 < 3 ∧
    (selectDishOfTheDay "2024-5-7"
        [⟨"A", "a.jpg", [], []⟩, ⟨"B", "b.jpg", [], []⟩,
          ⟨"C", "c.jpg", [], []⟩]
        ⟨none, none, 0⟩).dishOfTheDay =
      some ([(⟨"A", "a.jpg", [], []⟩ : DishEntity), ⟨"B", "b.jpg", [], []⟩,
          ⟨"C", "c.jpg", [], []⟩].getD (claimedIndex 8 "2024-5-7" 0 3)
        emptyDish) :=
  selectDishOfTheDay_amendedC1 "2024-5-7"
    [⟨"A", "a.jpg", [], []⟩, ⟨"B", "b.jpg", [], []⟩, ⟨"C", "c.jpg", [], []⟩]
    ⟨none, none, 0⟩ (by simp)
